import Mathlib

/-!
A shallow embedding of the file-organizing core of `gemini_robot.py` and a
verification of its specification.

Modelling conventions:
* Filesystem paths are normalized absolute paths, represented as their list of
  components (`/a/b/c.txt` is `["a", "b", "c.txt"]`).  On such paths
  `os.path.join dir name` appends a component, `os.path.dirname` drops the last
  component, `os.path.basename` is the last component and `os.path.abspath` is
  the identity.
* The traversal performed by `glob.iglob` is an oracle: a lazy stream of
  matching paths, possibly interrupted by a raised exception.  `find_files`
  consumes a prefix of the stream exactly as the Python for-loop does.
* The filesystem state touched by `organize_files` is a record of the existing
  file paths and directory paths; `shutil.move` and `os.makedirs` act on it.
  Failures of `shutil.move` and `os.makedirs` are oracles as well.
* Console output is ignored (the functions' return values never depend on it).
-/

namespace GeminiRobot

/-- A normalized absolute path, as its list of components. -/
abbrev FsPath := List String

/-- Python `os.path.dirname` on a normalized absolute path. -/
def dirname (p : FsPath) : FsPath := p.dropLast

/-- Python `os.path.basename` on a normalized absolute path. -/
def basename (p : FsPath) : String := p.getLastD ""

/-- Rendering of a normalized absolute path as the string Python manipulates. -/
def renderPath (p : FsPath) : String := "/" ++ String.intercalate "/" p

/-- Python `s.startswith(pre)`. -/
def startswith (s pre : String) : Bool := pre.data.isPrefixOf s.data

/-- Python `c.lower()` for a single ASCII character. -/
def lowerChar (c : Char) : Char :=
  if 65 ≤ c.toNat ∧ c.toNat ≤ 90 then Char.ofNat (c.toNat + 32) else c

/-- Python `s.lower()` (restricted to its ASCII action). -/
def lower (s : String) : String := ⟨s.data.map lowerChar⟩

/-- Python `s.lstrip('.')`. -/
def lstripDots (s : String) : String := ⟨s.data.dropWhile (· == '.')⟩

/-- Line 48 of released code: `ext = file_extension.lower().lstrip('.')`. -/
def normalizeExt (file_extension : String) : String := lstripDots (lower file_extension)

/-- An element of the `list[str]` value returned by `find_files`: either a found
path (rendered by `renderPath`) or a sentinel message string. -/
inductive Entry
  | path (p : FsPath)
  | msg (s : String)
deriving DecidableEq, Repr

/-- The string an `Entry` stands for in the Python list. -/
def Entry.render : Entry → String
  | .path p => renderPath p
  | .msg s => s

/-- The path of a path entry (junk value on sentinel messages, which never reach
the move loop). -/
def Entry.getPath : Entry → FsPath
  | .path p => p
  | .msg _ => []

/-- One item yielded by the `glob.iglob` traversal: a matching path (already
absolute, since the search root is absolute), or the point at which the
traversal raises an exception with the given message. -/
abbrev GlobItem := Except String FsPath

/-- Lines 61-67: the for-loop over `glob.iglob`, carrying `count`.  Each match
is appended (after `os.path.abspath`, the identity here); once `count` reaches
50 the loop breaks, so later stream items are never demanded.  An exception
raised by the traversal aborts the loop and discards the collected files. -/
def globLoop : List GlobItem → Nat → Except String (List FsPath)
  | [], _ => .ok []
  | .error e :: _, _ => .error e
  | .ok p :: rest, count =>
    if count + 1 ≥ 50 then .ok [p]
    else
      match globLoop rest (count + 1) with
      | .error e => .error e
      | .ok ps => .ok (p :: ps)

/-- Lines 44-76: `find_files(file_extension, search_path)`.  The traversal
stream is the oracle for `glob.iglob(search_pattern, recursive=True)`. -/
def find_files (glob_stream : List GlobItem) (file_extension : String)
    (search_path : String) : List Entry :=
  let ext := normalizeExt file_extension
  match globLoop glob_stream 0 with
  | .error e => [.msg ("Error during search: " ++ e)]
  | .ok found_files =>
    if found_files.isEmpty then
      [.msg ("No files with extension ." ++ ext ++ " found in " ++ search_path)]
    else
      found_files.map Entry.path

/-- The filesystem state `organize_files` reads and writes: the set of existing
file paths and the set of existing directory paths, as lists. -/
structure FS where
  files : List FsPath
  dirs : List FsPath
deriving DecidableEq, Repr

/-- Python `os.path.exists`. -/
def FS.pexists (fs : FS) (p : FsPath) : Bool :=
  decide (p ∈ fs.files) || decide (p ∈ fs.dirs)

/-- Total number of recorded paths, used to bound the collision-search fuel. -/
def FS.size (fs : FS) : Nat := fs.files.length + fs.dirs.length

/-- Python `shutil.move src dst` on a successful move of a file. -/
def shutilMove (fs : FS) (src dst : FsPath) : FS :=
  { fs with files := dst :: fs.files.erase src }

/-- Index of the last dot of a character list, if any. -/
def lastDotIdx (cs : List Char) : Option Nat :=
  ((List.range cs.length).filter (fun i => cs.getD i ' ' == '.')).getLast?

/-- Python `os.path.splitext` on a bare filename: split at the last dot, unless
every character before that dot is itself a dot. -/
def splitext (filename : String) : String × String :=
  let cs := filename.data
  match lastDotIdx cs with
  | none => (filename, "")
  | some i =>
    if (cs.take i).any (fun c => ¬ c == '.') then (⟨cs.take i⟩, ⟨cs.drop i⟩)
    else (filename, "")

/-- Line 126: the candidate filename `f"{base}_{counter}{extension}"`. -/
def candName (base extension : String) (counter : Nat) : String :=
  base ++ "_" ++ Nat.repr counter ++ extension

/-- Lines 125-127: the `while os.path.exists(destination)` loop.  The source
loop has no fuel; the fuel here only bounds the iteration count, and
`collisionLoop_finds_least` below shows the bound `FS.size fs + 2` used by
`chooseDest` is never reached, so the embedding computes exactly what the
source loop computes. -/
def collisionLoop (fs : FS) (target_dir : FsPath) (base extension : String) :
    Nat → Nat → FsPath → FsPath
  | 0, _, destination => destination
  | fuel + 1, counter, destination =>
    if fs.pexists destination then
      collisionLoop fs target_dir base extension fuel (counter + 1)
        (target_dir ++ [candName base extension counter])
    else destination

/-- Lines 118-127: the destination chosen for one file, including duplicate
handling. -/
def chooseDest (fs : FS) (target_dir : FsPath) (filename : String) : FsPath :=
  let destination := target_dir ++ [filename]
  if fs.pexists destination then
    let (base, extension) := splitext filename
    collisionLoop fs target_dir base extension (fs.size + 2) 1 destination
  else destination

/-- Lines 113-134: the body of the move loop for one `file_path`.  `moveFail`
is the oracle for `shutil.move` raising: `some e` means the move raises with
message `e`.  The accumulator is `(filesystem, moved_count, errors)`. -/
def processOne (target_dir : FsPath) (moveFail : FsPath → FsPath → Option String)
    (acc : FS × Nat × List String) (file_path : FsPath) : FS × Nat × List String :=
  let fs := acc.1
  let moved_count := acc.2.1
  let errors := acc.2.2
  if dirname file_path = target_dir then acc
  else
    let filename := basename file_path
    let destination := chooseDest fs target_dir filename
    match moveFail file_path destination with
    | some e => (fs, moved_count, errors ++ ["Failed to move " ++ filename ++ ": " ++ e])
    | none => (shutilMove fs file_path destination, moved_count + 1, errors)

/-- Lines 110-134: the whole move loop. -/
def moveAll (target_dir : FsPath) (moveFail : FsPath → FsPath → Option String)
    (files_to_move : List FsPath) (acc : FS × Nat × List String) : FS × Nat × List String :=
  files_to_move.foldl (processOne target_dir moveFail) acc

/-- Line 97: the Python expression
`files_to_move and files_to_move[0].startswith("Error") or files_to_move[0].startswith("No files")`.
On an empty list the `and` short-circuits to the falsy list, so the `or`
evaluates its right operand and `files_to_move[0]` raises an `IndexError`
(modelled as the `.error` branch); on a non-empty list the expression is the
disjunction of the two prefix tests on the first element. -/
def sentinelTest (files_to_move : List Entry) : Except String Bool :=
  match files_to_move with
  | [] => .error "IndexError: list index out of range"
  | e :: _ => .ok (startswith e.render "Error" || startswith e.render "No files")

/-- Lines 91-140: `organize_files(file_extension, source_path, target_folder_name)`.
Oracles: `glob_stream` drives the inner `find_files` call, `mkdirFail` is
`some e` when `os.makedirs` would raise with message `e`, and `moveFail`
drives `shutil.move`.  The result is `.ok (status_message, final_filesystem)`,
or `.error` for an exception the function does not catch (only the
`IndexError` of `sentinelTest` could occur, and `organize_never_raises` shows
it cannot). -/
def organize_files (glob_stream : List GlobItem) (mkdirFail : Option String)
    (moveFail : FsPath → FsPath → Option String) (file_extension : String)
    (source_path : FsPath) (target_folder_name : String) (fs : FS) :
    Except String (String × FS) :=
  let files_to_move := find_files glob_stream file_extension (renderPath source_path)
  match sentinelTest files_to_move with
  | .error e => .error e
  | .ok true => .ok ((files_to_move.headD (.msg "")).render, fs)
  | .ok false =>
    let target_dir := source_path ++ [target_folder_name]
    let made : Except String FS :=
      if fs.pexists target_dir then .ok fs
      else
        match mkdirFail with
        | some e => .error ("Failed to create target directory: " ++ e)
        | none => .ok { fs with dirs := target_dir :: fs.dirs }
    match made with
    | .error m => .ok (m, fs)
    | .ok fs1 =>
      let r := moveAll target_dir moveFail (files_to_move.map Entry.getPath) (fs1, 0, [])
      let result_msg := "Successfully moved " ++ Nat.repr r.2.1 ++ " files to "
        ++ renderPath target_dir ++ "."
      let result_msg :=
        if r.2.2.isEmpty then result_msg
        else result_msg ++ "\nErrors encountered: " ++ String.intercalate "; " r.2.2
      .ok (result_msg, r.1)

/-- Result of one `chat.send_message` attempt: a reply text, or the message of
the exception the call raises. -/
inductive SendResult
  | ok (text : String)
  | err (msg : String)
deriving DecidableEq, Repr

/-- Python `sub in s` on strings: some suffix of `s` starts with `sub`. -/
def strContains (s sub : String) : Bool :=
  (List.range (s.data.length + 1)).any (fun i => sub.data.isPrefixOf (s.data.drop i))

/-- Line 176: the Python test `"429" in error_str`. -/
def has429 (error_str : String) : Bool := strContains error_str "429"

/-- Observable events of the session loop (console output, sleeps, dispatcher
calls).  `send n` is the n-th `chat.send_message` attempt for the current
input, 1-based. -/
inductive Ev
  | send (attempt : Nat)
  | printReply (text : String)
  | printRetryNotice (wait retry max_retries : Nat)
  | sleep (seconds : Nat)
  | printFinalFailure
  | printOuterError (msg : String)
  | printGoodbye
deriving DecidableEq, Repr

/-- Test used to count dispatcher attempts in an event trace. -/
def Ev.isSend : Ev → Bool
  | .send _ => true
  | _ => false

/-- Lines 168-182: the inner `while retry_count < max_retries` loop.
`outcome k` is the result of the attempt made when `retry_count = k`.  Returns
the event trace, the final `retry_count`, and `some e` when the loop ends by
re-raising a non-rate-limit exception `e` (line 182). -/
def retryLoop (outcome : Nat → SendResult) (max_retries retry_count : Nat) :
    List Ev × Nat × Option String :=
  if retry_count < max_retries then
    match outcome retry_count with
    | .ok t => ([.send (retry_count + 1), .printReply t], retry_count, none)
    | .err e =>
      if has429 e then
        let rc := retry_count + 1
        let wait := 10 * rc
        let r := retryLoop outcome max_retries rc
        (.send (retry_count + 1) :: .printRetryNotice wait rc max_retries :: .sleep wait :: r.1,
          r.2)
      else ([.send (retry_count + 1)], retry_count, some e)
  else ([], retry_count, none)
termination_by max_retries - retry_count

/-- Lines 163-188: the handling of one (non-exit) user input: run the retry
loop with `max_retries = 3` from `retry_count = 0`; a re-raised exception skips
the final-failure check and is printed by the outer handler (line 188), after
which the session loop continues; otherwise the final-failure notice is
printed when `retry_count >= max_retries` (lines 184-185). -/
def processInput (outcome : Nat → SendResult) : List Ev :=
  let r := retryLoop outcome 3 0
  match r.2.2 with
  | some e => r.1 ++ [.printOuterError e]
  | none => if r.2.1 ≥ 3 then r.1 ++ [.printFinalFailure] else r.1

/-- Lines 157-188: the interactive loop over a stream of user inputs, each
paired with the oracle for its dispatcher attempts.  The input list models the
console input actually typed; an `exit`/`quit` input ends the loop. -/
def sessionLoop : List (String × (Nat → SendResult)) → List Ev
  | [] => []
  | (user_input, outcome) :: rest =>
    if lower user_input = "exit" ∨ lower user_input = "quit" then [.printGoodbye]
    else processInput outcome ++ sessionLoop rest

/-! ## Helper lemmas -/

theorem toDigitsCore_append (fuel : Nat) : ∀ (n : Nat) (ds : List Char),
    Nat.toDigitsCore 10 fuel n ds = Nat.toDigitsCore 10 fuel n [] ++ ds := by
  induction fuel with
  | zero => intro n ds; simp [Nat.toDigitsCore]
  | succ fuel ih =>
    intro n ds
    simp only [Nat.toDigitsCore]
    by_cases h : n / 10 = 0
    · simp [h]
    · simp only [h, if_false]
      rw [ih (n / 10) [Nat.digitChar (n % 10)], ih (n / 10) (Nat.digitChar (n % 10) :: ds)]
      simp

theorem toDigitsCore_fuel_irrel (n : Nat) : ∀ (f1 f2 : Nat), n < f1 → n < f2 →
    Nat.toDigitsCore 10 f1 n [] = Nat.toDigitsCore 10 f2 n [] := by
  induction n using Nat.strong_induction_on with
  | _ n ih =>
    intro f1 f2 h1 h2
    match f1, f2 with
    | g1 + 1, g2 + 1 =>
      simp only [Nat.toDigitsCore]
      by_cases h : n / 10 = 0
      · simp [h]
      · simp only [h, if_false]
        have hn10 : n / 10 < n := Nat.div_lt_self (by omega) (by omega)
        rw [toDigitsCore_append, toDigitsCore_append g2]
        rw [ih (n / 10) hn10 g1 g2 (by omega) (by omega)]

theorem toDigits_eq (n : Nat) :
    Nat.toDigits 10 n = if n / 10 = 0 then [Nat.digitChar (n % 10)]
      else Nat.toDigits 10 (n / 10) ++ [Nat.digitChar (n % 10)] := by
  by_cases h : n / 10 = 0
  · simp only [h, if_true]
    unfold Nat.toDigits
    simp [Nat.toDigitsCore, h]
  · simp only [h, if_false]
    unfold Nat.toDigits
    simp only [Nat.toDigitsCore, h, if_false]
    rw [toDigitsCore_append]
    congr 1
    exact toDigitsCore_fuel_irrel (n / 10) n (n / 10 + 1)
      (Nat.div_lt_self (by omega) (by omega)) (by omega)

theorem toDigits_ne_nil (n : Nat) : Nat.toDigits 10 n ≠ [] := by
  rw [toDigits_eq]
  by_cases h : n / 10 = 0 <;> simp [h]

theorem digitChar_inj : ∀ a, a < 10 → ∀ b, b < 10 → Nat.digitChar a = Nat.digitChar b → a = b := by
  decide

theorem toDigits_inj (m : Nat) : ∀ n, Nat.toDigits 10 m = Nat.toDigits 10 n → m = n := by
  induction m using Nat.strong_induction_on with
  | _ m ih =>
    intro n h
    rw [toDigits_eq, toDigits_eq n] at h
    by_cases hm : m / 10 = 0 <;> by_cases hn : n / 10 = 0
    · simp only [hm, hn, if_true] at h
      have := digitChar_inj (m % 10) (by omega) (n % 10) (by omega) (by simpa using h)
      omega
    · simp only [hm, hn, if_true, if_false] at h
      have hlen := congrArg List.length h
      simp only [List.length_cons, List.length_append, List.length_nil] at hlen
      have hnil : Nat.toDigits 10 (n / 10) = [] :=
        List.eq_nil_of_length_eq_zero (by omega)
      exact absurd hnil (toDigits_ne_nil _)
    · simp only [hm, hn, if_true, if_false] at h
      have hlen := congrArg List.length h
      simp only [List.length_cons, List.length_append, List.length_nil] at hlen
      have hnil : Nat.toDigits 10 (m / 10) = [] :=
        List.eq_nil_of_length_eq_zero (by omega)
      exact absurd hnil (toDigits_ne_nil _)
    · simp only [hm, hn, if_false] at h
      obtain ⟨h1, h2⟩ := List.append_inj' h (by simp)
      have e1 : m / 10 = n / 10 :=
        ih (m / 10) (Nat.div_lt_self (by omega) (by omega)) (n / 10) h1
      have e2 : m % 10 = n % 10 :=
        digitChar_inj (m % 10) (by omega) (n % 10) (by omega) (by simpa using h2)
      omega

theorem natRepr_inj {m n : Nat} (h : Nat.repr m = Nat.repr n) : m = n :=
  toDigits_inj m n (List.asString_inj.mp h)

theorem candName_inj (base extension : String) {j k : Nat}
    (h : candName base extension j = candName base extension k) : j = k := by
  unfold candName at h
  have hd := congrArg String.data h
  simp only [String.data_append] at hd
  obtain ⟨h1, -⟩ := List.append_inj' hd (by simp)
  have h2 := List.append_cancel_left h1
  have h3 : Nat.repr j = Nat.repr k := by
    cases hj : Nat.repr j; cases hk : Nat.repr k
    rw [hj, hk] at h2
    exact congrArg String.mk h2
  exact natRepr_inj h3

theorem startswith_append (pre t : String) : startswith (pre ++ t) pre = true := by
  unfold startswith
  rw [String.data_append, List.isPrefixOf_iff_prefix]
  exact List.prefix_append pre.data t.data

theorem globLoop_all (ps : List FsPath) : ∀ c : Nat, c + ps.length ≤ 50 →
    globLoop (ps.map .ok) c = .ok ps := by
  induction ps with
  | nil => intro c h; rfl
  | cons p tl ih =>
    intro c h
    simp only [List.map_cons, globLoop]
    by_cases hc : c + 1 ≥ 50
    · have : tl = [] := by
        cases tl with
        | nil => rfl
        | cons a l => simp [List.length] at h; omega
      subst this
      simp [hc]
    · simp only [hc, if_false]
      rw [ih (c + 1) (by simp at h ⊢; omega)]

theorem globLoop_cap (ps : List FsPath) : ∀ (rest : List GlobItem) (c : Nat),
    c + ps.length = 50 → ps ≠ [] →
    globLoop (ps.map .ok ++ rest) c = .ok ps := by
  induction ps with
  | nil => intro rest c h hne; exact absurd rfl hne
  | cons p tl ih =>
    intro rest c h hne
    simp only [List.map_cons, List.cons_append, globLoop]
    by_cases hc : c + 1 ≥ 50
    · have : tl = [] := by
        cases tl with
        | nil => rfl
        | cons a l => simp [List.length] at h; omega
      subst this
      simp [hc]
    · simp only [hc, if_false]
      have htl : tl ≠ [] := by
        intro he; subst he; simp at h; omega
      rw [show (List.map Except.ok tl).append rest = List.map Except.ok tl ++ rest from rfl,
        ih rest (c + 1) (by simp at h ⊢; omega) htl]

theorem globLoop_error (ps : List FsPath) : ∀ (e : String) (rest : List GlobItem) (c : Nat),
    c + ps.length < 50 →
    globLoop (ps.map .ok ++ .error e :: rest) c = .error e := by
  induction ps with
  | nil => intro e rest c h; rfl
  | cons p tl ih =>
    intro e rest c h
    simp only [List.map_cons, List.cons_append, globLoop]
    have hc : ¬ c + 1 ≥ 50 := by simp at h ⊢; omega
    simp only [hc, if_false]
    rw [show (List.map Except.ok tl).append (Except.error e :: rest) =
      List.map Except.ok tl ++ Except.error e :: rest from rfl,
      ih e rest (c + 1) (by simp at h ⊢; omega)]

theorem find_files_all (ms : List FsPath) (ext sp : String)
    (h50 : ms.length ≤ 50) (hne : ms ≠ []) :
    find_files (ms.map .ok) ext sp = ms.map Entry.path := by
  unfold find_files
  rw [globLoop_all ms 0 (by omega)]
  simp [List.isEmpty_iff, hne]

theorem find_files_cap (ms : List FsPath) (rest : List GlobItem) (ext sp : String)
    (h : 50 ≤ ms.length) :
    find_files (ms.map .ok ++ rest) ext sp = (ms.take 50).map Entry.path := by
  unfold find_files
  have hps : (ms.take 50).length = 50 := by simp [h]
  have hsplit : ms.map (Except.ok (ε := String)) ++ rest =
      (ms.take 50).map .ok ++ ((ms.drop 50).map .ok ++ rest) := by
    rw [← List.append_assoc, ← List.map_append, List.take_append_drop]
  rw [hsplit, globLoop_cap (ms.take 50) _ 0 (by omega)
    (by intro hnil; rw [hnil] at hps; simp at hps)]
  have : ms.take 50 ≠ [] := by intro hnil; rw [hnil] at hps; simp at hps
  simp [List.isEmpty_iff, this]

theorem find_files_ne_nil (gs : List GlobItem) (ext sp : String) :
    find_files gs ext sp ≠ [] := by
  unfold find_files
  cases h : globLoop gs 0 with
  | error e => simp
  | ok ps =>
    cases ps with
    | nil => simp
    | cons a tl => simp

theorem startswith_of_data_prefix (s pre : String) (h : pre.data <+: s.data) :
    startswith s pre = true := by
  unfold startswith
  rwa [List.isPrefixOf_iff_prefix]

theorem prefix_stretch {l1 l2 : List Char} (rest : List Char)
    (h : l1.isPrefixOf l2 = true) : l1 <+: l2 ++ rest :=
  (List.isPrefixOf_iff_prefix.mp h).trans (List.prefix_append l2 rest)

theorem toNat_ofNat_valid (n : Nat) (h : n < 55296) : (Char.ofNat n).toNat = n := by
  rw [Char.ofNat, dif_pos (Or.inl h)]
  rfl

theorem lowerChar_eq_dot_iff (c : Char) : lowerChar c = '.' ↔ c = '.' := by
  constructor
  · intro h
    unfold lowerChar at h
    by_cases hb : 65 ≤ c.toNat ∧ c.toNat ≤ 90
    · rw [if_pos hb] at h
      have := congrArg Char.toNat h
      rw [toNat_ofNat_valid (c.toNat + 32) (by omega)] at this
      have hdot : ('.').toNat = 46 := by decide
      omega
    · rwa [if_neg hb] at h
  · intro h
    subst h
    decide

theorem processOne_skip (td : FsPath) (mf : FsPath → FsPath → Option String)
    (acc : FS × Nat × List String) (f : FsPath) (h : dirname f = td) :
    processOne td mf acc f = acc := by
  simp [processOne, h]

theorem moveAll_skip (td : FsPath) (mf : FsPath → FsPath → Option String) :
    ∀ (files : List FsPath) (acc : FS × Nat × List String),
      (∀ f ∈ files, dirname f = td) → moveAll td mf files acc = acc := by
  intro files
  induction files with
  | nil => intro acc _; rfl
  | cons f tl ih =>
    intro acc hall
    unfold moveAll at ih ⊢
    rw [List.foldl_cons, processOne_skip td mf acc f (hall f (List.mem_cons_self f tl))]
    exact ih acc (fun g hg => hall g (List.mem_cons_of_mem f hg))

theorem processOne_account (td : FsPath) (mf : FsPath → FsPath → Option String)
    (acc : FS × Nat × List String) (f : FsPath) :
    (processOne td mf acc f).2.1 + (processOne td mf acc f).2.2.length =
      acc.2.1 + acc.2.2.length + (if dirname f = td then 0 else 1) := by
  unfold processOne
  by_cases h : dirname f = td
  · simp [h]
  · simp only [h, if_false]
    cases hm : mf f (chooseDest acc.1 td (basename f)) with
    | none => simp [hm]; omega
    | some e => simp [hm]; omega

theorem moveAll_account (td : FsPath) (mf : FsPath → FsPath → Option String) :
    ∀ (files : List FsPath) (acc : FS × Nat × List String),
      (moveAll td mf files acc).2.1 + (moveAll td mf files acc).2.2.length =
        acc.2.1 + acc.2.2.length + files.countP (fun f => ! decide (dirname f = td)) := by
  intro files
  induction files with
  | nil => intro acc; simp [moveAll, List.countP_nil]
  | cons f tl ih =>
    intro acc
    unfold moveAll at ih ⊢
    rw [List.foldl_cons, List.countP_cons]
    have h1 := ih (processOne td mf acc f)
    have h2 := processOne_account td mf acc f
    by_cases h : dirname f = td
    · simp only [h] at h2 ⊢
      simp at h2 ⊢
      omega
    · simp only [h] at h2 ⊢
      simp [h] at h2 ⊢
      omega

theorem collisionLoop_stop (fs : FS) (td : FsPath) (b e : String) (fuel c : Nat)
    (d : FsPath) (hd : fs.pexists d = false) : collisionLoop fs td b e fuel c d = d := by
  cases fuel <;> simp [collisionLoop, hd]

theorem collisionLoop_spec (fs : FS) (td : FsPath) (b e : String) :
    ∀ (fuel c : Nat) (d : FsPath),
      (∃ j, c ≤ j ∧ j < c + fuel ∧ fs.pexists (td ++ [candName b e j]) = false) →
      fs.pexists d = true →
      ∃ k, c ≤ k ∧ fs.pexists (td ++ [candName b e k]) = false ∧
        (∀ j, c ≤ j → j < k → fs.pexists (td ++ [candName b e j]) = true) ∧
        collisionLoop fs td b e fuel c d = td ++ [candName b e k] := by
  intro fuel
  induction fuel with
  | zero =>
    rintro c d ⟨j, hj1, hj2, -⟩ -
    omega
  | succ fuel ih =>
    rintro c d ⟨j, hj1, hj2, hj3⟩ hd
    rw [collisionLoop]
    simp only [hd, if_true]
    cases hc : fs.pexists (td ++ [candName b e c]) with
    | false =>
      refine ⟨c, Nat.le_refl c, hc, fun j h1 h2 => absurd (Nat.lt_of_le_of_lt h1 h2) (Nat.lt_irrefl c), ?_⟩
      exact collisionLoop_stop fs td b e fuel (c + 1) _ hc
    | true =>
      have hjc : j ≠ c := by
        intro hh
        rw [hh] at hj3
        rw [hj3] at hc
        cases hc
      obtain ⟨k, hk1, hk2, hk3, hk4⟩ :=
        ih (c + 1) (td ++ [candName b e c]) ⟨j, by omega, by omega, hj3⟩ hc
      refine ⟨k, by omega, hk2, ?_, hk4⟩
      intro i hi1 hi2
      by_cases hic : i = c
      · rw [hic]; exact hc
      · exact hk3 i (by omega) hi2

theorem exists_free_cand (fs : FS) (td : FsPath) (b e : String) :
    ∃ j, 1 ≤ j ∧ j < 1 + (fs.size + 2) ∧
      fs.pexists (td ++ [candName b e j]) = false := by
  by_contra hc
  push_neg at hc
  have hall : ∀ j, 1 ≤ j → j < fs.size + 3 → fs.pexists (td ++ [candName b e j]) = true := by
    intro j h1 h2
    have := hc j h1 (by omega)
    cases h : fs.pexists (td ++ [candName b e j])
    · exact absurd h this
    · rfl
  have hmem : ∀ j, 1 ≤ j → j < fs.size + 3 →
      (td ++ [candName b e j]) ∈ (fs.files ++ fs.dirs).toFinset := by
    intro j h1 h2
    have := hall j h1 h2
    unfold FS.pexists at this
    simp only [Bool.or_eq_true, decide_eq_true_eq] at this
    rw [List.mem_toFinset, List.mem_append]
    exact this
  have hinj : Set.InjOn (fun j => td ++ [candName b e j]) (Finset.Icc 1 (fs.size + 2)) := by
    intro x _ y _ hxy
    simp only at hxy
    have := List.append_cancel_left hxy
    exact candName_inj b e (List.singleton_injective this)
  have hcard := Finset.card_le_card_of_injOn (fun j => td ++ [candName b e j])
    (fun j hj => by
      rw [Finset.mem_Icc] at hj
      exact hmem j hj.1 (by omega)) hinj
  rw [Nat.card_Icc] at hcard
  have hle : (fs.files ++ fs.dirs).toFinset.card ≤ fs.size := by
    calc (fs.files ++ fs.dirs).toFinset.card ≤ (fs.files ++ fs.dirs).length := List.toFinset_card_le _
    _ = fs.size := by simp [FS.size]
  omega

/-! ## Claim theorems -/

/-- Claim C1 (amended): for every directory tree with at least one matching
file, find returns the matching files' absolute paths in traversal order: all
N of them when N is at most 50, and exactly the first 50 encountered (with the
stream past the 50th match never demanded, so traversal stops early and no
51st element appears) when N exceeds 50; the result is determined by traversal
order alone.  The original claim also covered N = 0, where the code instead
returns the one-element "No files" sentinel list; see
`find_files_zero_matches_counterexample`. -/
theorem find_files_first_fifty (ms : List FsPath) (ext sp : String) (hne : ms ≠ []) :
    find_files (ms.map .ok) ext sp = (ms.take 50).map Entry.path ∧
    (ms.length ≤ 50 → find_files (ms.map .ok) ext sp = ms.map Entry.path) ∧
    (find_files (ms.map .ok) ext sp).length = min ms.length 50 ∧
    (50 ≤ ms.length → ∀ rest,
      find_files (ms.map .ok ++ rest) ext sp = (ms.take 50).map Entry.path) := by
  have hmain : find_files (ms.map .ok) ext sp = (ms.take 50).map Entry.path := by
    by_cases h50 : ms.length ≤ 50
    · rw [find_files_all ms ext sp h50 hne, List.take_of_length_le h50]
    · have := find_files_cap ms [] ext sp (by omega)
      rwa [List.append_nil] at this
  refine ⟨hmain, fun h50 => find_files_all ms ext sp h50 hne, ?_,
    fun h50 rest => find_files_cap ms rest ext sp h50⟩
  rw [hmain, List.length_map, List.length_take]
  omega

/-- Claim C1 counterexample: on a tree with zero matching files (N = 0) the
claim as stated would require the empty list of paths, but `find_files`
returns a one-element sentinel list. -/
theorem find_files_zero_matches_counterexample :
    find_files ([] : List GlobItem) "txt" "/docs" ≠ ([] : List FsPath).map Entry.path ∧
    find_files ([] : List GlobItem) "txt" "/docs" =
      [Entry.msg "No files with extension .txt found in /docs"] := by
  constructor
  · decide
  · rfl

/-- Claim C1 witness: the amended theorem evaluated on a concrete one-file
tree. -/
theorem find_files_first_fifty_witness :
    (([["docs", "a.txt"]] : List FsPath) ≠ []) ∧
    (find_files (([["docs", "a.txt"]] : List FsPath).map .ok) "txt" "/docs" =
        (([["docs", "a.txt"]] : List FsPath).take 50).map Entry.path ∧
      (([["docs", "a.txt"]] : List FsPath).length ≤ 50 →
        find_files (([["docs", "a.txt"]] : List FsPath).map .ok) "txt" "/docs" =
          ([["docs", "a.txt"]] : List FsPath).map Entry.path) ∧
      (find_files (([["docs", "a.txt"]] : List FsPath).map .ok) "txt" "/docs").length =
        min ([["docs", "a.txt"]] : List FsPath).length 50 ∧
      (50 ≤ ([["docs", "a.txt"]] : List FsPath).length → ∀ rest,
        find_files (([["docs", "a.txt"]] : List FsPath).map .ok ++ rest) "txt" "/docs" =
          (([["docs", "a.txt"]] : List FsPath).take 50).map Entry.path)) :=
  ⟨by decide, find_files_first_fifty [["docs", "a.txt"]] "txt" "/docs" (by decide)⟩

/-- Claim C6: for every search root and extension with zero matching files and
no traversal exception, find returns a single-element list whose only element
is a descriptive string starting with "No files with extension". -/
theorem find_files_no_matches_sentinel (ext sp : String) :
    find_files [] ext sp =
      [.msg ("No files with extension ." ++ normalizeExt ext ++ " found in " ++ sp)] ∧
    (find_files [] ext sp).length = 1 ∧
    startswith (Entry.render ((find_files [] ext sp).headD (.msg "")))
      "No files with extension" = true := by
  have h : find_files [] ext sp =
      [.msg ("No files with extension ." ++ normalizeExt ext ++ " found in " ++ sp)] := rfl
  refine ⟨h, by rw [h]; rfl, ?_⟩
  rw [h]
  show startswith ("No files with extension ." ++ normalizeExt ext ++ " found in " ++ sp)
    "No files with extension" = true
  apply startswith_of_data_prefix
  simp only [String.data_append, List.append_assoc]
  exact prefix_stretch _ (by decide)

/-- Claim C7: whenever the traversal raises an I/O exception (before the
50-match cap is reached, so the loop actually demands the failing item), the
exception is caught and find returns a single-element list whose only element
is a descriptive string prefixed "Error during search:".  The function is pure
by construction, so the error is non-fatal and has no side effects beyond
console output. -/
theorem find_files_traversal_error (ps : List FsPath) (e : String) (rest : List GlobItem)
    (ext sp : String) (h : ps.length < 50) :
    find_files (ps.map .ok ++ .error e :: rest) ext sp =
      [.msg ("Error during search: " ++ e)] ∧
    (find_files (ps.map .ok ++ .error e :: rest) ext sp).length = 1 ∧
    startswith
      (Entry.render ((find_files (ps.map .ok ++ .error e :: rest) ext sp).headD (.msg "")))
      "Error during search:" = true := by
  have hmain : find_files (ps.map .ok ++ .error e :: rest) ext sp =
      [.msg ("Error during search: " ++ e)] := by
    unfold find_files
    rw [globLoop_error ps e rest 0 (by omega)]
  refine ⟨hmain, by rw [hmain]; rfl, ?_⟩
  rw [hmain]
  show startswith ("Error during search: " ++ e) "Error during search:" = true
  apply startswith_of_data_prefix
  simp only [String.data_append, List.append_assoc]
  exact prefix_stretch _ (by decide)

/-- Claim C7 witness: the theorem evaluated on a traversal that raises
immediately with a permission error. -/
theorem find_files_traversal_error_witness :
    (([] : List FsPath).length < 50) ∧
    (find_files (([] : List FsPath).map .ok ++ .error "Permission denied" :: []) "txt" "/root" =
        [Entry.msg ("Error during search: " ++ "Permission denied")] ∧
      (find_files (([] : List FsPath).map .ok ++ .error "Permission denied" :: []) "txt"
        "/root").length = 1 ∧
      startswith
        (Entry.render ((find_files (([] : List FsPath).map .ok ++ .error "Permission denied" :: [])
          "txt" "/root").headD (.msg ""))) "Error during search:" = true) :=
  ⟨by decide, find_files_traversal_error [] "Permission denied" [] "txt" "/root" (by decide)⟩

/-- Claim C9 counterexample: for the extension strings "." and "" the
normalized extension (lowercased, leading dots stripped) is empty, so the
claimed invariant "extension non-empty after normalization" fails; the code
proceeds to build the search pattern with the empty extension anyway. -/
theorem normalizeExt_empty_counterexample :
    normalizeExt "." = "" ∧ normalizeExt "" = "" := by
  constructor
  · rfl
  · rfl

/-- Claim C9 (amended): the normalized extension is non-empty exactly when the
extension string passed to find contains at least one character other than a
dot. -/
theorem normalizeExt_ne_empty_iff (s : String) :
    normalizeExt s ≠ "" ↔ ∃ c ∈ s.data, c ≠ '.' := by
  unfold normalizeExt lstripDots lower
  constructor
  · intro h
    by_contra hc
    push_neg at hc
    apply h
    have hnil : (s.data.map lowerChar).dropWhile (· == '.') = [] := by
      rw [List.dropWhile_eq_nil_iff]
      intro x hx
      rw [List.mem_map] at hx
      obtain ⟨c, hc1, hc2⟩ := hx
      subst hc2
      rw [hc c hc1]
      decide
    rw [hnil]
  · rintro ⟨c, hc1, hc2⟩ h
    have hdata : (s.data.map lowerChar).dropWhile (· == '.') = [] := congrArg String.data h
    rw [List.dropWhile_eq_nil_iff] at hdata
    have := hdata (lowerChar c) (List.mem_map_of_mem lowerChar hc1)
    rw [beq_iff_eq] at this
    exact hc2 ((lowerChar_eq_dot_iff c).mp this)

/-- Claim C2: for every call to organize, if the list returned by the inner
find call is an error or no-files sentinel (its first entry begins with
"Error" or "No files"), organize returns that sentinel string immediately as
the overall status and the filesystem state is unchanged: no target directory
is created and no file is moved. -/
theorem organize_sentinel_early_return (gs : List GlobItem) (mkf : Option String)
    (mvf : FsPath → FsPath → Option String) (ext : String) (sp : FsPath) (tf : String) (fs : FS)
    (h : startswith (Entry.render ((find_files gs ext (renderPath sp)).headD (.msg "")))
        "Error" = true ∨
      startswith (Entry.render ((find_files gs ext (renderPath sp)).headD (.msg "")))
        "No files" = true) :
    organize_files gs mkf mvf ext sp tf fs =
      .ok (Entry.render ((find_files gs ext (renderPath sp)).headD (.msg "")), fs) := by
  cases hf : find_files gs ext (renderPath sp) with
  | nil => exact absurd hf (find_files_ne_nil gs ext (renderPath sp))
  | cons a tl =>
    rw [hf] at h
    unfold organize_files
    rw [hf]
    have hb : (startswith a.render "Error" || startswith a.render "No files") = true := by
      rcases h with h | h <;> simp [List.headD] at h <;> simp [h]
    simp [sentinelTest, hb, List.headD]

/-- Claim C2 witness: the theorem evaluated on a search with zero matches,
whose "No files" sentinel is returned unchanged together with the untouched
filesystem. -/
theorem organize_sentinel_early_return_witness :
    (startswith (Entry.render ((find_files ([] : List GlobItem) "txt"
        (renderPath ["s"])).headD (.msg ""))) "Error" = true ∨
      startswith (Entry.render ((find_files ([] : List GlobItem) "txt"
        (renderPath ["s"])).headD (.msg ""))) "No files" = true) ∧
    organize_files [] none (fun _ _ => none) "txt" ["s"] "Archive" ⟨[], [["s"]]⟩ =
      .ok (Entry.render ((find_files ([] : List GlobItem) "txt"
        (renderPath ["s"])).headD (.msg "")), ⟨[], [["s"]]⟩) :=
  ⟨Or.inr (by decide),
    organize_sentinel_early_return [] none (fun _ _ => none) "txt" ["s"] "Archive"
      ⟨[], [["s"]]⟩ (Or.inr (by decide))⟩

/-- Claim C8: evaluating the error/empty sentinel check on the found list
never raises an index error, because find always returns a non-empty list
(either at least one matching path or exactly one sentinel string); hence the
check evaluates to a Boolean and organize never propagates the IndexError
that an empty list would trigger under the short-circuit evaluation modelled
in `sentinelTest`. -/
theorem sentinel_check_safe :
    (∀ gs ext sp, find_files gs ext sp ≠ []) ∧
    (∀ gs ext sp, ∃ b, sentinelTest (find_files gs ext sp) = .ok b) ∧
    (∀ gs mkf mvf ext sp tf fs, ∃ v, organize_files gs mkf mvf ext sp tf fs = .ok v) := by
  refine ⟨find_files_ne_nil, ?_, ?_⟩
  · intro gs ext sp
    cases hf : find_files gs ext sp with
    | nil => exact absurd hf (find_files_ne_nil gs ext sp)
    | cons a tl => exact ⟨_, rfl⟩
  · intro gs mkf mvf ext sp tf fs
    unfold organize_files
    cases hf : find_files gs ext (renderPath sp) with
    | nil => exact absurd hf (find_files_ne_nil gs ext (renderPath sp))
    | cons a tl =>
      simp only [sentinelTest]
      cases hb : (startswith a.render "Error" || startswith a.render "No files")
      · by_cases hex : fs.pexists (sp ++ [tf]) = true
        · simp [hex]
        · cases mkf with
          | some e => simp [hex]
          | none => simp [hex]
      · simp

/-- Claim C5: a file whose containing directory equals the resolved target
directory is skipped silently: the per-file step returns the accumulator
unchanged (no move, no count increment, no error), a found list consisting
only of such files leaves the whole state unchanged, and an organize call
whose find results all already live in the target directory (as in a second
call with the same extension, source and target) reports "Successfully moved
0 files" with the filesystem unchanged. -/
theorem organize_skips_files_in_target
    (td : FsPath) (mf : FsPath → FsPath → Option String) :
    (∀ acc f, dirname f = td → processOne td mf acc f = acc) ∧
    (∀ files acc, (∀ f ∈ files, dirname f = td) → moveAll td mf files acc = acc) ∧
    (∀ gs mkf ext sp tf fs,
      sp ++ [tf] = td →
      sentinelTest (find_files gs ext (renderPath sp)) = .ok false →
      (∀ en ∈ find_files gs ext (renderPath sp), dirname en.getPath = td) →
      fs.pexists td = true →
      organize_files gs mkf mf ext sp tf fs =
        .ok ("Successfully moved 0 files to " ++ renderPath td ++ ".", fs)) := by
  refine ⟨fun acc f h => processOne_skip td mf acc f h, fun files acc h => moveAll_skip td mf files acc h, ?_⟩
  intro gs mkf ext sp tf fs htd hst hall hex
  subst htd
  unfold organize_files
  simp only [hst, hex, if_true]
  have hskip : moveAll (sp ++ [tf]) mf
      ((find_files gs ext (renderPath sp)).map Entry.getPath) (fs, 0, []) = (fs, 0, []) := by
    apply moveAll_skip
    intro f hfm
    rw [List.mem_map] at hfm
    obtain ⟨en, hen, rfl⟩ := hfm
    exact hall en hen
  rw [hskip]
  have hmsg : "Successfully moved " ++ Nat.repr 0 ++ " files to " =
      "Successfully moved 0 files to " := by decide
  simp only [List.isEmpty_nil, if_true]
  rw [hmsg]

/-- Claim C5 witness: the skip step and the whole organize call evaluated on a
filesystem whose only matching file already sits in the Archive target. -/
theorem organize_skips_files_in_target_witness :
    processOne ["s", "Archive"] (fun _ _ => none)
      (⟨[["s", "Archive", "a.txt"]], [["s"], ["s", "Archive"]]⟩, 0, [])
      ["s", "Archive", "a.txt"] =
      (⟨[["s", "Archive", "a.txt"]], [["s"], ["s", "Archive"]]⟩, 0, []) ∧
    organize_files [.ok ["s", "Archive", "a.txt"]] none (fun _ _ => none) "txt" ["s"]
      "Archive" ⟨[["s", "Archive", "a.txt"]], [["s"], ["s", "Archive"]]⟩ =
      .ok ("Successfully moved 0 files to " ++ renderPath ["s", "Archive"] ++ ".",
        ⟨[["s", "Archive", "a.txt"]], [["s"], ["s", "Archive"]]⟩) :=
  ⟨(organize_skips_files_in_target ["s", "Archive"] (fun _ _ => none)).1 _ _ (by decide),
    (organize_skips_files_in_target ["s", "Archive"] (fun _ _ => none)).2.2
      [.ok ["s", "Archive", "a.txt"]] none "txt" ["s"] "Archive" _ (by decide) rfl
      (by decide) (by decide)⟩

/-- Claim C10: each found file reaching the move phase is handled in exactly
one of three ways - skipped because it already sits in the target directory,
moved successfully, or recorded as a per-file error - so moved count plus
number of collected errors equals the number of found files whose containing
directory is not the target directory, and the loop always continues past a
per-file failure (processing a concatenation processes the second part from
the state after the first). -/
theorem move_loop_accounting :
    (∀ td mf files fs n errs,
      (moveAll td mf files (fs, n, errs)).2.1 +
          (moveAll td mf files (fs, n, errs)).2.2.length =
        n + errs.length + files.countP (fun f => ! decide (dirname f = td))) ∧
    (∀ td mf acc f,
      (dirname f = td ∧ processOne td mf acc f = acc) ∨
      (¬ dirname f = td ∧ ∃ e, mf f (chooseDest acc.1 td (basename f)) = some e ∧
        processOne td mf acc f =
          (acc.1, acc.2.1, acc.2.2 ++ ["Failed to move " ++ basename f ++ ": " ++ e])) ∨
      (¬ dirname f = td ∧ mf f (chooseDest acc.1 td (basename f)) = none ∧
        processOne td mf acc f =
          (shutilMove acc.1 f (chooseDest acc.1 td (basename f)), acc.2.1 + 1, acc.2.2))) ∧
    (∀ td mf l1 l2 acc, moveAll td mf (l1 ++ l2) acc = moveAll td mf l2 (moveAll td mf l1 acc)) := by
  refine ⟨?_, ?_, ?_⟩
  · intro td mf files fs n errs
    simpa using moveAll_account td mf files (fs, n, errs)
  · intro td mf acc f
    by_cases h : dirname f = td
    · exact Or.inl ⟨h, processOne_skip td mf acc f h⟩
    · cases hm : mf f (chooseDest acc.1 td (basename f)) with
      | some e => exact Or.inr (Or.inl ⟨h, e, rfl, by simp [processOne, h, hm]⟩)
      | none => exact Or.inr (Or.inr ⟨h, rfl, by simp [processOne, h, hm]⟩)
  · intro td mf l1 l2 acc
    unfold moveAll
    exact List.foldl_append _ _ l1 l2


/-- Claim C3: when the destination name of a file being moved already exists,
the collision is resolved by appending an underscore and an incrementing
counter before the extension: the chosen destination is the candidate with
the least counter k at least 1 that does not exist (existence checked freshly
at each candidate: all candidates below k exist, candidate k does not), and
the pre-existing file at the original destination name is left untouched by
the move. -/
theorem collision_suffix_resolution (fs : FS) (target_dir : FsPath) (file_path : FsPath)
    (moveFail : FsPath → FsPath → Option String) (moved_count : Nat) (errors : List String)
    (hskip : ¬ dirname file_path = target_dir)
    (hex : fs.pexists (target_dir ++ [basename file_path]) = true) :
    ∃ k, 1 ≤ k ∧
      chooseDest fs target_dir (basename file_path) =
        target_dir ++ [candName (splitext (basename file_path)).1
          (splitext (basename file_path)).2 k] ∧
      fs.pexists (chooseDest fs target_dir (basename file_path)) = false ∧
      (∀ j, 1 ≤ j → j < k →
        fs.pexists (target_dir ++ [candName (splitext (basename file_path)).1
          (splitext (basename file_path)).2 j]) = true) ∧
      (target_dir ++ [basename file_path] ∈ fs.files →
        target_dir ++ [basename file_path] ∈
          (processOne target_dir moveFail (fs, moved_count, errors) file_path).1.files) := by
  obtain ⟨b, e, hbe⟩ : ∃ b e, splitext (basename file_path) = (b, e) :=
    ⟨_, _, rfl⟩
  have hloop := collisionLoop_spec fs target_dir b e (fs.size + 2) 1
    (target_dir ++ [basename file_path]) (exists_free_cand fs target_dir b e) hex
  obtain ⟨k, hk1, hk2, hk3, hk4⟩ := hloop
  have hcd : chooseDest fs target_dir (basename file_path) =
      target_dir ++ [candName b e k] := by
    unfold chooseDest
    rw [if_pos hex, hbe]
    exact hk4
  refine ⟨k, hk1, by rw [hcd, hbe], by rw [hcd]; exact hk2, by rw [hbe]; exact hk3, ?_⟩
  intro hmem
  have hne : target_dir ++ [basename file_path] ≠ file_path := by
    intro hh
    apply hskip
    rw [← hh]
    unfold dirname
    exact List.dropLast_concat
  unfold processOne
  rw [if_neg hskip]
  dsimp only
  cases hmv : moveFail file_path (chooseDest fs target_dir (basename file_path)) with
  | some msg => simpa using hmem
  | none =>
    simp only [shutilMove, List.mem_cons]
    right
    exact (List.mem_erase_of_ne hne).mpr hmem


/-- Claim C3 witness: with Archive/a.txt already present, moving a different
a.txt from a subdirectory chooses Archive/a_1.txt and leaves Archive/a.txt in
place. -/
theorem collision_suffix_resolution_witness :
    (¬ dirname ["s", "sub", "a.txt"] = ["s", "Archive"]) ∧
    (FS.pexists ⟨[["s", "Archive", "a.txt"], ["s", "sub", "a.txt"]], [["s", "Archive"]]⟩
      (["s", "Archive"] ++ [basename ["s", "sub", "a.txt"]]) = true) ∧
    (∃ k, 1 ≤ k ∧
      chooseDest ⟨[["s", "Archive", "a.txt"], ["s", "sub", "a.txt"]], [["s", "Archive"]]⟩
          ["s", "Archive"] (basename ["s", "sub", "a.txt"]) =
        ["s", "Archive"] ++ [candName (splitext (basename ["s", "sub", "a.txt"])).1
          (splitext (basename ["s", "sub", "a.txt"])).2 k] ∧
      FS.pexists ⟨[["s", "Archive", "a.txt"], ["s", "sub", "a.txt"]], [["s", "Archive"]]⟩
        (chooseDest ⟨[["s", "Archive", "a.txt"], ["s", "sub", "a.txt"]], [["s", "Archive"]]⟩
          ["s", "Archive"] (basename ["s", "sub", "a.txt"])) = false ∧
      (∀ j, 1 ≤ j → j < k →
        FS.pexists ⟨[["s", "Archive", "a.txt"], ["s", "sub", "a.txt"]], [["s", "Archive"]]⟩
          (["s", "Archive"] ++ [candName (splitext (basename ["s", "sub", "a.txt"])).1
            (splitext (basename ["s", "sub", "a.txt"])).2 j]) = true) ∧
      (["s", "Archive"] ++ [basename ["s", "sub", "a.txt"]] ∈
          (⟨[["s", "Archive", "a.txt"], ["s", "sub", "a.txt"]],
            [["s", "Archive"]]⟩ : FS).files →
        ["s", "Archive"] ++ [basename ["s", "sub", "a.txt"]] ∈
          (processOne ["s", "Archive"] (fun _ _ => none)
            (⟨[["s", "Archive", "a.txt"], ["s", "sub", "a.txt"]], [["s", "Archive"]]⟩, 0, [])
            ["s", "sub", "a.txt"]).1.files)) ∧
    chooseDest ⟨[["s", "Archive", "a.txt"], ["s", "sub", "a.txt"]], [["s", "Archive"]]⟩
      ["s", "Archive"] (basename ["s", "sub", "a.txt"]) = ["s", "Archive", "a_1.txt"] ∧
    (processOne ["s", "Archive"] (fun _ _ => none)
      (⟨[["s", "Archive", "a.txt"], ["s", "sub", "a.txt"]], [["s", "Archive"]]⟩, 0, [])
      ["s", "sub", "a.txt"]).1.files =
        [["s", "Archive", "a_1.txt"], ["s", "Archive", "a.txt"]] :=
  ⟨by decide, by decide,
    collision_suffix_resolution
      ⟨[["s", "Archive", "a.txt"], ["s", "sub", "a.txt"]], [["s", "Archive"]]⟩
      ["s", "Archive"] ["s", "sub", "a.txt"] (fun _ _ => none) 0 []
      (by decide) (by decide),
    by decide, by decide⟩


theorem retryLoop_sends (oc : Nat → SendResult) :
    ∀ d mr rc, mr - rc ≤ d → ((retryLoop oc mr rc).1.countP Ev.isSend) ≤ d := by
  intro d
  induction d with
  | zero =>
    intro mr rc h
    have hlt : ¬ rc < mr := by omega
    rw [retryLoop]
    simp [hlt]
  | succ d ih =>
    intro mr rc h
    rw [retryLoop]
    by_cases hlt : rc < mr
    · simp only [hlt, if_true]
      cases hoc : oc rc with
      | ok t => simp [List.countP_cons, Ev.isSend]
      | err e =>
        by_cases h4 : has429 e
        · simp only [h4, if_true]
          have hrec := ih mr (rc + 1) (by omega)
          simp only [List.countP_cons, Ev.isSend]
          simp
          omega
        · simp [h4, List.countP_cons, Ev.isSend]
    · simp [hlt]


/-- Claim C4: on a dispatcher failure whose description contains "429" the
session loop retries with sleeps of 10 seconds times the attempt number (10s,
20s, ...) and makes at most 3 dispatcher attempts in total; after exhausting
the retries it prints a final failure notice and returns to await the next
input; a failure not containing "429" is surfaced immediately by the outer
handler without any retry or sleep; and in both cases the session loop
continues with the remaining inputs rather than terminating. -/
theorem retry_policy :
    (∀ oc e, oc 0 = .err e → has429 e = false →
      processInput oc = [.send 1, .printOuterError e]) ∧
    (∀ oc e0 e1 t, oc 0 = .err e0 → oc 1 = .err e1 →
      has429 e0 = true → has429 e1 = true → oc 2 = .ok t →
      processInput oc = [.send 1, .printRetryNotice 10 1 3, .sleep 10, .send 2,
        .printRetryNotice 20 2 3, .sleep 20, .send 3, .printReply t]) ∧
    (∀ oc e0 e1 e2, oc 0 = .err e0 → oc 1 = .err e1 → oc 2 = .err e2 →
      has429 e0 = true → has429 e1 = true → has429 e2 = true →
      processInput oc = [.send 1, .printRetryNotice 10 1 3, .sleep 10, .send 2,
        .printRetryNotice 20 2 3, .sleep 20, .send 3, .printRetryNotice 30 3 3, .sleep 30,
        .printFinalFailure]) ∧
    (∀ oc, (processInput oc).countP Ev.isSend ≤ 3) ∧
    (∀ inp oc rest, ¬ (lower inp = "exit" ∨ lower inp = "quit") →
      sessionLoop ((inp, oc) :: rest) = processInput oc ++ sessionLoop rest) := by
  refine ⟨?_, ?_, ?_, ?_, ?_⟩
  · intro oc e h0 h4
    have hr : retryLoop oc 3 0 = ([.send 1], 0, some e) := by
      rw [retryLoop]
      simp [h0, h4]
    simp [processInput, hr]
  · intro oc e0 e1 t h0 h1 h40 h41 h2
    have hr2 : retryLoop oc 3 2 = ([.send 3, .printReply t], 2, none) := by
      rw [retryLoop]
      simp [h2]
    have hr1 : retryLoop oc 3 1 = ([.send 2, .printRetryNotice 20 2 3, .sleep 20,
        .send 3, .printReply t], 2, none) := by
      rw [retryLoop]
      simp [h1, h41, hr2]
    have hr0 : retryLoop oc 3 0 = ([.send 1, .printRetryNotice 10 1 3, .sleep 10, .send 2,
        .printRetryNotice 20 2 3, .sleep 20, .send 3, .printReply t], 2, none) := by
      rw [retryLoop]
      simp [h0, h40, hr1]
    simp [processInput, hr0]
  · intro oc e0 e1 e2 h0 h1 h2 h40 h41 h42
    have hr3 : retryLoop oc 3 3 = ([], 3, none) := by
      rw [retryLoop]
      simp
    have hr2 : retryLoop oc 3 2 = ([.send 3, .printRetryNotice 30 3 3, .sleep 30], 3, none) := by
      rw [retryLoop]
      simp [h2, h42, hr3]
    have hr1 : retryLoop oc 3 1 = ([.send 2, .printRetryNotice 20 2 3, .sleep 20,
        .send 3, .printRetryNotice 30 3 3, .sleep 30], 3, none) := by
      rw [retryLoop]
      simp [h1, h41, hr2]
    have hr0 : retryLoop oc 3 0 = ([.send 1, .printRetryNotice 10 1 3, .sleep 10, .send 2,
        .printRetryNotice 20 2 3, .sleep 20, .send 3, .printRetryNotice 30 3 3, .sleep 30],
        3, none) := by
      rw [retryLoop]
      simp [h0, h40, hr1]
    simp [processInput, hr0]
  · intro oc
    have hbound := retryLoop_sends oc 3 3 0 (by omega)
    unfold processInput
    dsimp only
    cases hc : (retryLoop oc 3 0).2.2 with
    | some e =>
      dsimp only
      rw [List.countP_append]
      have hz : List.countP Ev.isSend [Ev.printOuterError e] = 0 := by simp [Ev.isSend]
      omega
    | none =>
      dsimp only
      by_cases hge : (retryLoop oc 3 0).2.1 ≥ 3
      · rw [if_pos hge, List.countP_append]
        have hz : List.countP Ev.isSend [Ev.printFinalFailure] = 0 := by simp [Ev.isSend]
        omega
      · rw [if_neg hge]
        exact hbound
  · intro inp oc rest h
    show (if lower inp = "exit" ∨ lower inp = "quit" then [Ev.printGoodbye]
      else processInput oc ++ sessionLoop rest) = processInput oc ++ sessionLoop rest
    rw [if_neg h]

/-- Claim C4 witness: the retry policy evaluated on concrete outcome oracles -
a non-rate-limit failure, two rate-limit failures followed by success, an
always-failing rate limit, and a failing input followed by loop
continuation. -/
theorem retry_policy_witness :
    ((fun _ : Nat => SendResult.err "boom") 0 = .err "boom" ∧ has429 "boom" = false ∧
      processInput (fun _ : Nat => SendResult.err "boom") =
        [.send 1, .printOuterError "boom"]) ∧
    (processInput (fun k : Nat => if k < 2 then SendResult.err "Error 429 quota" else .ok "done") =
      [.send 1, .printRetryNotice 10 1 3, .sleep 10, .send 2,
        .printRetryNotice 20 2 3, .sleep 20, .send 3, .printReply "done"]) ∧
    (processInput (fun _ : Nat => SendResult.err "429") =
      [.send 1, .printRetryNotice 10 1 3, .sleep 10, .send 2,
        .printRetryNotice 20 2 3, .sleep 20, .send 3, .printRetryNotice 30 3 3, .sleep 30,
        .printFinalFailure]) ∧
    (¬ (lower "find my pdfs" = "exit" ∨ lower "find my pdfs" = "quit") ∧
      sessionLoop [("find my pdfs", fun _ : Nat => SendResult.err "boom")] =
        processInput (fun _ : Nat => SendResult.err "boom") ++ sessionLoop []) :=
  ⟨⟨rfl, by decide,
      retry_policy.1 (fun _ => SendResult.err "boom") "boom" rfl (by decide)⟩,
    retry_policy.2.1 (fun k => if k < 2 then SendResult.err "Error 429 quota" else .ok "done")
      "Error 429 quota" "Error 429 quota" "done" rfl rfl (by decide) (by decide) rfl,
    retry_policy.2.2.1 (fun _ => SendResult.err "429") "429" "429" "429" rfl rfl rfl
      (by decide) (by decide) (by decide),
    ⟨by decide,
      retry_policy.2.2.2.2 "find my pdfs" (fun _ => SendResult.err "boom") [] (by decide)⟩⟩

end GeminiRobot
